import Mathlib

/-!
Verification development for the Python-Based Command Terminal
(`terminal.py`, class `PythonTerminal`).

The interpreter core is embedded shallowly:

* `parse_command` embeds `PythonTerminal.parse_command` (the tokenizer);
* `TermState` carries the session state the class keeps on `self`
  (`current_dir`, `command_history`, `environment_vars`, `aliases`)
  together with the host process environment (`os.environ`);
* `routeOf` embeds the routing portion of `PythonTerminal.execute_command`
  (alias substitution, registry lookup, external fallback);
* the built-in handlers that read or mutate session state
  (`cd`, `pwd`, `echo`, `env`, `export`, `history`, `exit`, `alias`,
  `unalias`) are embedded directly; the remaining built-ins only touch the
  outside world (filesystem, process table), never the session state, and
  are modelled by an oracle (`World.runBuiltinIO`) that may also raise, as
  a Python handler may;
* `executeCommand` embeds `PythonTerminal.execute_command`, including the
  history append and the catch-all `except` boundary that renders a raised
  exception as an `Error: ...` line.

Python dictionaries are modelled as insertion-ordered association lists
(`getA`/`setA`/`delA`); machine-level details that the claims do not touch
(Unicode whitespace beyond ASCII, `os.chdir` failing on an existing
directory) are modelled at the granularity the source exercises.
-/

/-- The whitespace characters stripped by Python's `str.strip()`
(ASCII subset, which is all the interpreter is exercised on). -/
def pyWhitespace (c : Char) : Bool :=
  c = ' ' || c = '\t' || c = '\n' || c = '\r' || c = '\x0b' || c = '\x0c'

/-- Strip characters satisfying `p` from both ends of a string
(Python `str.strip` / `str.strip(chars)`). -/
def stripBoth (p : Char → Bool) (s : String) : String :=
  ⟨((s.data.dropWhile p).reverse.dropWhile p).reverse⟩

/-- Python `str.strip()` with no argument. -/
def pyStrip (s : String) : String := stripBoth pyWhitespace s

/-- The character-scanning loop of `PythonTerminal.parse_command`:
`qc` is `some q` when inside a quote opened by `q` (the pair
`in_quotes`/`quote_char` of the source), `cur` is `current_token`, and
`acc` the emitted `tokens` so far. -/
def parseLoop : List Char → Option Char → String → List String → List String
  | [], _, cur, acc => if cur.isEmpty then acc else acc ++ [cur]
  | c :: rest, none, cur, acc =>
    if c = '"' || c = '\'' then parseLoop rest (some c) cur acc
    else if c = ' ' then
      if cur.isEmpty then parseLoop rest none "" acc
      else parseLoop rest none "" (acc ++ [cur])
    else parseLoop rest none (cur.push c) acc
  | c :: rest, some q, cur, acc =>
    if c = q then parseLoop rest none cur acc
    else parseLoop rest (some q) (cur.push c) acc

/-- `PythonTerminal.parse_command`: tokenize a command line, handling
single and double quotes; a blank line yields no tokens. -/
def parse_command (command_line : String) : List String :=
  if (pyStrip command_line).isEmpty then []
  else parseLoop command_line.data none "" []

example : parse_command "a b" = ["a", "b"] := by decide
example : parse_command "a \"b c\" d" = ["a", "b c", "d"] := by decide
example : parse_command "a \"b" = ["a", "b"] := by decide
example : parse_command "a \"\" b" = ["a", "b"] := by decide

/-! ## Session state and Python-dict model -/

/-- Lookup in an insertion-ordered association list
(Python `d[k]` / `k in d` / `d.get(k)`). -/
def getA : List (String × String) → String → Option String
  | [], _ => none
  | (k', v') :: rest, k => if k' = k then some v' else getA rest k

/-- Update in an insertion-ordered association list: an existing key keeps
its position, a new key is appended (Python `d[k] = v`). -/
def setA : List (String × String) → String → String → List (String × String)
  | [], k, v => [(k, v)]
  | (k', v') :: rest, k, v =>
    if k' = k then (k, v) :: rest else (k', v') :: setA rest k v

/-- Deletion from an association list (Python `del d[k]`). -/
def delA : List (String × String) → String → List (String × String)
  | [], _ => []
  | (k', v') :: rest, k => if k' = k then rest else (k', v') :: delA rest k

/-- The session state held on `self` by `PythonTerminal`, plus the host
process environment `os.environ` (`host_env`), which `cmd_export` also
writes and which spawned child processes inherit. -/
structure TermState where
  current_dir : String
  command_history : List String
  environment_vars : List (String × String)
  aliases : List (String × String)
  host_env : List (String × String)
deriving Repr, DecidableEq

/-- The handlers registered in `self.builtin_commands`. -/
inductive Builtin where
  | cd | pwd | ls | mkdir | rmdir | rm | cp | mv | cat | echo | touch
  | find | grep | ps | top | kill | env | exportVar | history | clear
  | exit | help | whoami | date | uptime | df | free | alias | unalias
deriving Repr, DecidableEq

/-- The `self.builtin_commands` dictionary: command name to handler;
`dir` is registered as a synonym for the `ls` handler. -/
def builtin_commands (name : String) : Option Builtin :=
  match name with
  | "cd" => some .cd
  | "pwd" => some .pwd
  | "ls" => some .ls
  | "dir" => some .ls
  | "mkdir" => some .mkdir
  | "rmdir" => some .rmdir
  | "rm" => some .rm
  | "cp" => some .cp
  | "mv" => some .mv
  | "cat" => some .cat
  | "echo" => some .echo
  | "touch" => some .touch
  | "find" => some .find
  | "grep" => some .grep
  | "ps" => some .ps
  | "top" => some .top
  | "kill" => some .kill
  | "env" => some .env
  | "export" => some .exportVar
  | "history" => some .history
  | "clear" => some .clear
  | "exit" => some .exit
  | "help" => some .help
  | "whoami" => some .whoami
  | "date" => some .date
  | "uptime" => some .uptime
  | "df" => some .df
  | "free" => some .free
  | "alias" => some .alias
  | "unalias" => some .unalias
  | _ => none

/-- Where a tokenized line is routed by `execute_command`:
no tokens at all, a registry (built-in) handler, or the external fallback
`execute_external_command`. -/
inductive DispatchTarget where
  | empty : DispatchTarget
  | builtin : Builtin → List String → DispatchTarget
  | external : String → List String → DispatchTarget
deriving Repr, DecidableEq

/-- The argument list a dispatch target carries. -/
def DispatchTarget.argList : DispatchTarget → List String
  | .empty => []
  | .builtin _ args => args
  | .external _ args => args

/-- The routing portion of `execute_command` (lines 104–120 of
`terminal.py`): take the head token, substitute the alias table entry for
it if one exists (a single plain string swap, no re-tokenization), then
look the resulting name up in the registry, falling back to external
execution. -/
def routeOf (aliases : List (String × String)) (tokens : List String) : DispatchTarget :=
  match tokens with
  | [] => .empty
  | t0 :: rest =>
    let cmd := match getA aliases t0 with
      | some r => r
      | none => t0
    match builtin_commands cmd with
    | some b => .builtin b rest
    | none => .external cmd rest

example : routeOf [("ll", "ls -l")] (parse_command "ll /tmp extra")
    = .external "ls -l" ["/tmp", "extra"] := by decide
example : routeOf [("exit", "echo")] ["exit"] = .builtin .echo [] := by decide

/-! ## Embedded built-in handlers -/

/-- `cmd_echo`: join the arguments with single spaces. -/
def cmd_echo (args : List String) : String := String.intercalate " " args

/-- `cmd_pwd`: the session's current working directory. -/
def cmd_pwd (st : TermState) : String := st.current_dir

/-- `cmd_exit`: the literal session-termination sentinel. -/
def cmd_exit (_args : List String) : String := "EXIT"

/-- `cmd_env`: with no argument, render the whole environment map;
otherwise look the variable up, reporting `not found` when absent. -/
def cmd_env (st : TermState) (args : List String) : String :=
  match args with
  | [] => String.intercalate "\n" (st.environment_vars.map (fun p => p.1 ++ "=" ++ p.2))
  | var_name :: _ =>
    match getA st.environment_vars var_name with
    | some v => v
    | none => "env: " ++ var_name ++ ": not found"

/-- Python's `f"{i:3}"`: render `i` right-aligned in a field of width at
least 3, padded with spaces. -/
def padLeft3 (i : Nat) : String :=
  let s := toString i
  if s.length < 3 then ⟨List.replicate (3 - s.length) ' '⟩ ++ s else s

/-- Python's `l[-n:]`: the at-most-`n` most recent elements. -/
def lastN (n : Nat) (l : List α) : List α := l.drop (l.length - n)

/-- The display lines built by `cmd_history`: the last 20 history entries,
enumerated from 1 (`enumerate(self.command_history[-20:], 1)`) and
rendered as `f"{i:3} {cmd}"`. -/
def historyLines (st : TermState) : List String :=
  if st.command_history.isEmpty then []
  else ((lastN 20 st.command_history).enumFrom 1).map
    (fun p => padLeft3 p.1 ++ " " ++ p.2)

/-- `cmd_history`: render the history display (empty when no history). -/
def cmd_history (st : TermState) : String :=
  String.intercalate "\n" (historyLines st)

/-- Python `s.split(sep, 1)` for a single-character separator that is
known to occur in `s`: the part before the first occurrence and the part
after it. -/
def splitOnce (sep : Char) (s : String) : String × String :=
  go s.data ""
where
  go : List Char → String → String × String
    | [], acc => (acc, "")
    | c :: rest, acc => if c = sep then (acc, ⟨rest⟩) else go rest (acc.push c)

/-- Python `"=" in s`. -/
def containsEq (s : String) : Bool := s.data.any (fun c => c = '=')

/-- The per-argument loop of `cmd_export`: each well-formed `key=value`
argument is split at the first `=`, the session environment map is
written first (`self.environment_vars[key] = value`), and then the value
is mirrored into the host process environment
(`os.environ[key] = value`). The host write raises for an empty variable
name — CPython's `os.environ.__setitem__` calls `putenv` before touching
its own backing dict, and C `setenv` rejects an empty name with
`EINVAL`, so the session map keeps the value while the host environment
is left untouched and the `OSError` propagates out of `cmd_export` (the
empty name is the failure case reachable from tokenized input; the split
guarantees the key holds no `=`). A malformed argument (no `=`) stops
the loop with an error return, keeping the mutations already made. -/
def exportLoop (st : TermState) : List String → Except String String × TermState
  | [] => (.ok "", st)
  | arg :: rest =>
    if containsEq arg then
      let kv := splitOnce '=' arg
      let st1 := { st with environment_vars := setA st.environment_vars kv.1 kv.2 }
      if kv.1 = "" then (.error "[Errno 22] Invalid argument", st1)
      else exportLoop { st1 with host_env := setA st1.host_env kv.1 kv.2 } rest
    else (.ok ("export: invalid format \x27" ++ arg ++ "\x27"), st)

/-- `cmd_export`: set environment variables from `key=value` arguments;
the result is `.error` exactly when the host-environment write raises. -/
def cmd_export (st : TermState) (args : List String) : Except String String × TermState :=
  if args.isEmpty then (.ok "export: missing operand", st)
  else exportLoop st args

/-- Python `s.strip("\x27\"")` as applied by `cmd_alias` to the
replacement text. -/
def stripQuotes (s : String) : String :=
  stripBoth (fun c => c = '\'' || c = '"') s

/-- The per-argument loop of `cmd_alias`: each well-formed `name=command`
argument installs an alias whose replacement is the text after the first
`=` with surrounding quote characters stripped; a malformed argument
stops the loop. -/
def aliasLoop (st : TermState) : List String → String × TermState
  | [] => ("", st)
  | arg :: rest =>
    if containsEq arg then
      let kv := splitOnce '=' arg
      aliasLoop { st with aliases := setA st.aliases kv.1 (stripQuotes kv.2) } rest
    else ("alias: invalid format \x27" ++ arg ++ "\x27", st)

/-- `cmd_alias`: with no argument, list the alias table; otherwise define
aliases from `name=command` arguments. -/
def cmd_alias (st : TermState) (args : List String) : String × TermState :=
  if args.isEmpty then
    (String.intercalate "\n"
      (st.aliases.map (fun p => p.1 ++ "=\x27" ++ p.2 ++ "\x27")), st)
  else aliasLoop st args

/-- The per-argument loop of `cmd_unalias`: remove each named alias,
stopping with an error on the first name that is absent. -/
def unaliasLoop (st : TermState) : List String → String × TermState
  | [] => ("", st)
  | name :: rest =>
    if (getA st.aliases name).isSome then
      unaliasLoop { st with aliases := delA st.aliases name } rest
    else ("unalias: " ++ name ++ ": not found", st)

/-- `cmd_unalias`: remove command aliases. -/
def cmd_unalias (st : TermState) (args : List String) : String × TermState :=
  if args.isEmpty then ("unalias: missing operand", st)
  else unaliasLoop st args

/-! ## Path resolution (POSIX `os.path`) and `cmd_cd` -/

/-- `os.path.isabs` on POSIX: the path starts with a slash. -/
def isabs (p : String) : Bool :=
  match p.data with
  | '/' :: _ => true
  | _ => false

/-- `os.path.join` on POSIX, two-argument form. -/
def joinPath (a b : String) : String :=
  if isabs b then b
  else if a = "" || a.data.getLast? = some '/' then a ++ b
  else a ++ "/" ++ b

/-- Python `p.startswith("//")`. -/
def startsSlash2 (p : String) : Bool :=
  match p.data with
  | '/' :: '/' :: _ => true
  | _ => false

/-- Python `p.startswith("///")`. -/
def startsSlash3 (p : String) : Bool :=
  match p.data with
  | '/' :: '/' :: '/' :: _ => true
  | _ => false

/-- The number of leading slashes `os.path.normpath` preserves on POSIX
(CPython: one for a path starting with `/`, except that exactly two
leading slashes are kept as two). -/
def initialSlashes (p : String) : Nat :=
  if isabs p then (if startsSlash2 p && ! startsSlash3 p then 2 else 1)
  else 0

/-- The scan underlying Python `str.split(sep)` for a one-character
separator: empty components are kept (`"a//b".split("/")` is
`["a","","b"]`). -/
def splitCharAux (sep : Char) : List Char → String → List String
  | [], acc => [acc]
  | c :: rest, acc =>
    if c = sep then acc :: splitCharAux sep rest ""
    else splitCharAux sep rest (acc.push c)

/-- Python `s.split(sep)` for a one-character separator. -/
def pySplitChar (sep : Char) (s : String) : List String :=
  splitCharAux sep s.data ""

/-- One step of `os.path.normpath`'s component scan; `rev` is the
`new_comps` list of the CPython source kept in reverse (its last element
first). -/
def normStep (hasInitialSlashes : Bool) (rev : List String) (comp : String) : List String :=
  if comp = "" || comp = "." then rev
  else if comp ≠ ".." || (!hasInitialSlashes && rev.isEmpty)
      || rev.head? = some ".." then comp :: rev
  else match rev with
       | _ :: rest => rest
       | [] => []

/-- `os.path.normpath` on POSIX: collapse `.`, `..`, and repeated
slashes, preserving a double leading slash. -/
def normpath (path : String) : String :=
  if path = "" then "."
  else
    let slashes := initialSlashes path
    let comps := pySplitChar '/' path
    let newComps := (comps.foldl (normStep (slashes > 0)) []).reverse
    let joined := String.intercalate "/" newComps
    let res := (⟨List.replicate slashes '/'⟩ : String) ++ joined
    if res = "" then "." else res

/-- `os.path.expanduser` for the `~` and `~/...` forms; other paths
(including `~user` forms for users absent from the account database)
are returned unchanged. -/
def expanduser (home : String) (p : String) : String :=
  if p = "~" then home
  else
    match p.data with
    | '~' :: '/' :: _ => home ++ (⟨p.data.drop 1⟩ : String)
    | _ => p

example : normpath "/a/b" = "/a/b" := by decide
example : normpath "/a/./b/../c//d/" = "/a/c/d" := by decide
example : normpath "//a" = "//a" := by decide
example : joinPath "/a" "b" = "/a/b" := by decide

/-- The world the interpreter's effectful parts observe: the home
directory (`os.path.expanduser`), the filesystem predicates `cmd_cd`
consults (`os.path.exists`, `os.path.isdir`), the behaviour of the
built-in handlers that only perform I/O (which may return output or raise
an exception, but never touch session state — none of them assigns to
`self`), and `execute_external_command` (which catches all its own
exceptions and always returns a string). -/
structure World where
  home : String
  pathExists : String → Bool
  isdir : String → Bool
  runBuiltinIO : Builtin → List String → TermState → Except String String
  runExternal : String → List String → TermState → String

/-- The target-directory resolution of `cmd_cd` (lines 153–165 of
`terminal.py`): pick the raw target from the arguments (`~` for none,
`$OLDPWD` for `-`), expand the user home, make it absolute against the
session's current directory, and normalize (`os.path.abspath`; the
session keeps `os.getcwd()` in sync with `current_dir`). -/
def cdTarget (w : World) (st : TermState) (args : List String) : String :=
  let target0 :=
    match args with
    | [] => expanduser w.home "~"
    | a :: _ => if a = "-" then (getA st.environment_vars "OLDPWD").getD st.current_dir else a
  let target1 := expanduser w.home target0
  let target2 := if isabs target1 then target1 else joinPath st.current_dir target1
  normpath (if isabs target2 then target2 else joinPath st.current_dir target2)

/-- `cmd_cd`: when the resolved target exists and is a directory, record
the previous directory under `OLDPWD` in the session environment map,
move there (`os.chdir`, modelled as succeeding on an existing directory)
and return no output; otherwise report the failure and leave the session
state untouched. -/
def cmd_cd (w : World) (st : TermState) (args : List String) : String × TermState :=
  let target := cdTarget w st args
  if w.pathExists target && w.isdir target then
    ("", { st with
            environment_vars := setA st.environment_vars "OLDPWD" st.current_dir,
            current_dir := target })
  else ("cd: " ++ target ++ ": No such file or directory", st)

/-! ## The dispatcher: `execute_command` -/

/-- Invoke a registry handler. The handlers that read or mutate session
state are the embedded ones above; of these only `cmd_export` can raise
(through the host-environment write — the others either cannot fail or
catch locally, as `cmd_cd` does). Every other handler only performs
I/O, so it is served by the world oracle, which returns its output or
the exception it raises, and leaves the session state exactly as it
found it (no such handler assigns to `self` in the source). -/
def runBuiltin (w : World) (b : Builtin) (args : List String) (st : TermState) :
    Except String String × TermState :=
  match b with
  | .cd => let r := cmd_cd w st args; (.ok r.1, r.2)
  | .pwd => (.ok (cmd_pwd st), st)
  | .echo => (.ok (cmd_echo args), st)
  | .env => (.ok (cmd_env st args), st)
  | .exportVar => cmd_export st args
  | .history => (.ok (cmd_history st), st)
  | .exit => (.ok (cmd_exit args), st)
  | .alias => let r := cmd_alias st args; (.ok r.1, r.2)
  | .unalias => let r := cmd_unalias st args; (.ok r.1, r.2)
  | b => (w.runBuiltinIO b args st, st)

/-- The history step at the top of `execute_command`: a line that is
non-empty after trimming is appended to `command_history` verbatim
(untrimmed, before tokenization); a blank line is not recorded. -/
def histAppend (st : TermState) (command_line : String) : TermState :=
  if (pyStrip command_line).isEmpty then st
  else { st with command_history := st.command_history ++ [command_line] }

/-- `PythonTerminal.execute_command`: append to history, tokenize, route
(alias substitution, registry lookup, external fallback), and run the
target; the method's catch-all `except` renders an exception raised by a
handler as `Error: {message}` instead of propagating it
(`execute_external_command` catches its own exceptions and always
returns a string). -/
def executeCommand (w : World) (st : TermState) (command_line : String) :
    String × TermState :=
  let st1 := histAppend st command_line
  match routeOf st1.aliases (parse_command command_line) with
  | .empty => ("", st1)
  | .builtin b args =>
    match runBuiltin w b args st1 with
    | (.ok out, st2) => (out, st2)
    | (.error msg, st2) => ("Error: " ++ msg, st2)
  | .external cmd args => (w.runExternal cmd args st1, st1)

/-! ## Tokenizer lemmas -/

theorem mem_dropWhile_of_not {p : Char → Bool} {c : Char} :
    ∀ {l : List Char}, c ∈ l → ¬ p c = true → c ∈ l.dropWhile p := by
  intro l
  induction l with
  | nil => intro h _; exact absurd h (List.not_mem_nil c)
  | cons a as ih =>
    intro hmem hp
    rw [List.dropWhile_cons]
    split
    · rcases List.mem_cons.mp hmem with h | h
      · subst h; simp_all
      · exact ih h hp
    · exact hmem

theorem pyStrip_eq_empty (s : String) (h : ∀ c ∈ s.data, pyWhitespace c = true) :
    pyStrip s = "" := by
  unfold pyStrip stripBoth
  rw [List.dropWhile_eq_nil_iff.mpr h]
  rfl

theorem pyStrip_ne_empty (s : String) (c : Char) (hc : c ∈ s.data)
    (hw : ¬ pyWhitespace c = true) : ¬ pyStrip s = "" := by
  intro h
  have hd := congrArg String.data h
  unfold pyStrip stripBoth at hd
  simp only [List.reverse_eq_nil_iff] at hd
  have hall := List.dropWhile_eq_nil_iff.mp hd
  have hc1 : c ∈ (s.data.dropWhile pyWhitespace).reverse :=
    List.mem_reverse.mpr (mem_dropWhile_of_not hc hw)
  exact hw (hall c hc1)

theorem parseLoop_ne_empty :
    ∀ (cs : List Char) (qc : Option Char) (cur : String) (acc : List String),
      (∀ t ∈ acc, t ≠ "") → ∀ t ∈ parseLoop cs qc cur acc, t ≠ "" := by
  intro cs
  induction cs with
  | nil =>
    intro qc cur acc hacc t ht
    simp only [parseLoop] at ht
    split at ht
    · exact hacc t ht
    · rcases List.mem_append.mp ht with h | h
      · exact hacc t h
      · rcases List.mem_singleton.mp h with rfl
        intro hne
        simp_all [String.isEmpty_iff]
  | cons c rest ih =>
    intro qc cur acc hacc t ht
    match qc with
    | none =>
      simp only [parseLoop] at ht
      split at ht
      · exact ih (some c) cur acc hacc t ht
      · split at ht
        · split at ht
          · exact ih none "" acc hacc t ht
          · refine ih none "" (acc ++ [cur]) ?_ t ht
            intro u hu
            rcases List.mem_append.mp hu with h | h
            · exact hacc u h
            · rcases List.mem_singleton.mp h with rfl
              simp_all [String.isEmpty_iff]
        · exact ih none (cur.push c) acc hacc t ht
    | some q =>
      simp only [parseLoop] at ht
      split at ht
      · exact ih none cur acc hacc t ht
      · exact ih (some q) (cur.push c) acc hacc t ht

/-- C7: the tokenizer satisfies its test vector: every whitespace-only
(or empty) line tokenizes to the empty sequence; `a b` tokenizes to
`["a","b"]`; `a "b c" d` tokenizes to `["a","b c","d"]` with the quotes
consumed; and the unterminated quote in `a "b` raises no error, the rest
of the line being kept as part of the final token: `["a","b"]`. -/
theorem tokenizer_test_vector :
    (∀ line : String, (∀ c ∈ line.data, pyWhitespace c = true) → parse_command line = [])
    ∧ parse_command "a b" = ["a", "b"]
    ∧ parse_command "a \"b c\" d" = ["a", "b c", "d"]
    ∧ parse_command "a \"b" = ["a", "b"] := by
  refine ⟨?_, by decide, by decide, by decide⟩
  intro line h
  unfold parse_command
  rw [pyStrip_eq_empty line h]
  rfl

theorem tokenizer_test_vector_witness :
    parse_command "   " = [] ∧ parse_command "a b" = ["a", "b"] :=
  ⟨tokenizer_test_vector.1 "   " (by decide), tokenizer_test_vector.2.1⟩

/-- C8 counterexample: an explicitly quoted empty string does NOT give
rise to an empty token at its position — tokenizing `a "" b` yields
`["a","b"]`, not `["a","","b"]`: the tokenizer only flushes a non-empty
buffer, so the quoted empty string vanishes. -/
theorem quoted_empty_no_token_counterexample :
    parse_command "a \"\" b" = ["a", "b"]
    ∧ parse_command "a \"\" b" ≠ ["a", "", "b"] :=
  ⟨by decide, by decide⟩

/-- C8 (amended): no token produced by the tokenizer is ever the empty
string — not even for an explicitly quoted `""`/`''`, which produces no
token at all (`a "" b` tokenizes to `["a","b"]`). -/
theorem token_nonempty_invariant :
    (∀ (line t : String), t ∈ parse_command line → t ≠ "")
    ∧ parse_command "a \"\" b" = ["a", "b"] := by
  refine ⟨?_, by decide⟩
  intro line t ht
  unfold parse_command at ht
  split at ht
  · exact absurd ht (List.not_mem_nil t)
  · exact parseLoop_ne_empty line.data none "" [] (by simp) t ht

theorem token_nonempty_invariant_witness : ("a" : String) ≠ "" :=
  token_nonempty_invariant.1 "a b" "a" (by decide)

/-! ## Dispatch lemmas and concrete sessions -/

theorem histAppend_aliases (st : TermState) (line : String) :
    (histAppend st line).aliases = st.aliases := by
  unfold histAppend; split <;> rfl

/-- A fresh session at `/` with empty history, environment and alias
table, in a world where nothing exists on disk and every oracle-served
command quietly returns no output. -/
def st0 : TermState :=
  { current_dir := "/", command_history := [], environment_vars := [],
    aliases := [], host_env := [] }

def w0 : World :=
  { home := "/root", pathExists := fun _ => false, isdir := fun _ => false,
    runBuiltinIO := fun _ _ _ => .ok "", runExternal := fun _ _ _ => "" }

/-- C1 counterexample: with the alias `ll` defined as `ls -l`, the line
`ll /tmp extra` does NOT route to the `ls` registry entry with arguments
`["-l","/tmp","extra"]`; the replacement text is swapped in as a single
head token without re-tokenization, so dispatch goes to the external
fallback under the command name `ls -l` with the original arguments
`["/tmp","extra"]`. -/
theorem alias_round_trip_counterexample :
    routeOf [("ll", "ls -l")] (parse_command "ll /tmp extra")
      = .external "ls -l" ["/tmp", "extra"]
    ∧ routeOf [("ll", "ls -l")] (parse_command "ll /tmp extra")
      ≠ .builtin .ls ["-l", "/tmp", "extra"] :=
  ⟨by decide, by decide⟩

/-- C1 (amended): after single-level alias substitution the remaining
original argument tokens are preserved unchanged; the replacement text
becomes the head command as one token (no re-tokenization), so a
multi-word replacement such as `ls -l` dispatches to the external
fallback under the whole replacement string, while a single-word
replacement (`ll=ls`) routes to the substituted registry entry with the
original arguments. -/
theorem alias_substitution_amended :
    (∀ (aliases : List (String × String)) (head r : String) (rest : List String),
      getA aliases head = some r →
        (routeOf aliases (head :: rest)).argList = rest
        ∧ (builtin_commands r = none → routeOf aliases (head :: rest) = .external r rest))
    ∧ routeOf [("ll", "ls -l")] (parse_command "ll /tmp extra")
        = .external "ls -l" ["/tmp", "extra"]
    ∧ routeOf [("ll", "ls")] (parse_command "ll /tmp extra")
        = .builtin .ls ["/tmp", "extra"] := by
  refine ⟨?_, by decide, by decide⟩
  intro aliases head r rest h
  constructor
  · simp only [routeOf, h]
    cases builtin_commands r <;> rfl
  · intro hb
    simp only [routeOf, h, hb]

theorem alias_substitution_amended_witness :
    (routeOf [("ll", "ls -l")] ["ll", "/tmp"]).argList = ["/tmp"] ∧
      routeOf [("ll", "ls -l")] ["ll", "/tmp"] = .external "ls -l" ["/tmp"] := by
  have h := alias_substitution_amended.1 [("ll", "ls -l")] "ll" "ls -l" ["/tmp"]
    (by decide)
  exact ⟨h.1, h.2 (by decide)⟩

/-- C2 counterexample: the exit command is NOT reserved at the dispatch
level: in a session where the alias `exit=echo` has been defined,
dispatching the line `exit` routes to the `echo` handler and returns the
empty string, not the `EXIT` sentinel. -/
theorem exit_alias_override_counterexample :
    (executeCommand w0 { st0 with aliases := [("exit", "echo")] } "exit").1 = ""
    ∧ (executeCommand w0 { st0 with aliases := [("exit", "echo")] } "exit").1 ≠ "EXIT"
    ∧ routeOf [("exit", "echo")] (parse_command "exit") = .builtin .echo [] :=
  ⟨by decide, by decide, by decide⟩

/-- C2 (amended): alias lookup precedes the registry for every head
token, `exit` included, so an alias whose key is `exit` overrides the
reserved exit command; only in a session with no such alias does
dispatching `exit` invoke the exit handler and return the `EXIT`
sentinel. -/
theorem exit_not_reserved_amended (w : World) (st : TermState)
    (h : getA st.aliases "exit" = none) :
    (executeCommand w st "exit").1 = "EXIT" := by
  have hp : parse_command "exit" = ["exit"] := by decide
  simp only [executeCommand, hp, histAppend_aliases, routeOf, h,
    builtin_commands, runBuiltin, cmd_exit]

theorem exit_not_reserved_amended_witness :
    (executeCommand w0 st0 "exit").1 = "EXIT" :=
  exit_not_reserved_amended w0 st0 (by decide)

/-- C3 counterexample: a dispatched command other than the reserved exit
command CAN return the exact string `EXIT`: the line `echo EXIT` routes
to the `echo` handler (not the exit handler) and its output is exactly
`EXIT`, which the driving loop would treat as the termination sentinel. -/
theorem sentinel_not_exclusive_counterexample :
    (executeCommand w0 st0 "echo EXIT").1 = "EXIT"
    ∧ routeOf st0.aliases (parse_command "echo EXIT") = .builtin .echo ["EXIT"]
    ∧ Builtin.echo ≠ Builtin.exit :=
  ⟨by decide, by decide, by decide⟩

/-- C3 (amended): the exit handler always produces the `EXIT` sentinel,
and the sentinel is distinguished from ordinary output only by exact
string match — so other commands can also produce it: `echo EXIT`
dispatches to the `echo` handler yet returns exactly `EXIT`. -/
theorem sentinel_exact_match_amended :
    (∀ (w : World) (st : TermState) (args : List String),
      (runBuiltin w .exit args st).1 = .ok "EXIT")
    ∧ (executeCommand w0 st0 "echo EXIT").1 = "EXIT"
    ∧ routeOf st0.aliases (parse_command "echo EXIT") = .builtin .echo ["EXIT"] :=
  ⟨fun _ _ _ => rfl, by decide, by decide⟩

/-! ## History-preservation lemmas -/

theorem exportLoop_history (args : List String) :
    ∀ st : TermState, (exportLoop st args).2.command_history = st.command_history := by
  induction args with
  | nil => intro st; rfl
  | cons a rest ih =>
    intro st
    simp only [exportLoop]
    split
    · split
      · rfl
      · rw [ih]
    · rfl

theorem cmd_export_history (st : TermState) (args : List String) :
    (cmd_export st args).2.command_history = st.command_history := by
  unfold cmd_export
  split
  · rfl
  · exact exportLoop_history args st

theorem aliasLoop_history (args : List String) :
    ∀ st : TermState, (aliasLoop st args).2.command_history = st.command_history := by
  induction args with
  | nil => intro st; rfl
  | cons a rest ih =>
    intro st
    simp only [aliasLoop]
    split
    · rw [ih]
    · rfl

theorem cmd_alias_history (st : TermState) (args : List String) :
    (cmd_alias st args).2.command_history = st.command_history := by
  unfold cmd_alias
  split
  · rfl
  · exact aliasLoop_history args st

theorem unaliasLoop_history (args : List String) :
    ∀ st : TermState, (unaliasLoop st args).2.command_history = st.command_history := by
  induction args with
  | nil => intro st; rfl
  | cons a rest ih =>
    intro st
    simp only [unaliasLoop]
    split
    · rw [ih]
    · rfl

theorem cmd_unalias_history (st : TermState) (args : List String) :
    (cmd_unalias st args).2.command_history = st.command_history := by
  unfold cmd_unalias
  split
  · rfl
  · exact unaliasLoop_history args st

theorem cmd_cd_history (w : World) (st : TermState) (args : List String) :
    (cmd_cd w st args).2.command_history = st.command_history := by
  simp only [cmd_cd]
  split <;> rfl

theorem runBuiltin_history (w : World) (b : Builtin) (args : List String) (st : TermState) :
    (runBuiltin w b args st).2.command_history = st.command_history := by
  cases b <;>
    simp only [runBuiltin] <;>
    first
      | rfl
      | exact cmd_cd_history w st args
      | exact cmd_export_history st args
      | exact cmd_alias_history st args
      | exact cmd_unalias_history st args

/-- C10: any line containing a non-whitespace character is appended to
the history log verbatim — untrimmed and before alias expansion — at the
top of `execute_command`, so the line is recorded whether its dispatch
succeeds, fails, goes to an unknown external command, or is the history
command itself: in every case the resulting history is the old history
with exactly the raw line appended. -/
theorem history_append_verbatim (w : World) (st : TermState) (line : String)
    (h : line.data.any (fun c => ! pyWhitespace c) = true) :
    (executeCommand w st line).2.command_history = st.command_history ++ [line] := by
  obtain ⟨c, hc, hw⟩ := List.any_eq_true.mp h
  have hne : ¬ pyStrip line = "" :=
    pyStrip_ne_empty line c hc (by simp at hw; simp [hw])
  have h1 : histAppend st line
      = { st with command_history := st.command_history ++ [line] } := by
    unfold histAppend
    rw [if_neg (fun hh => hne (String.isEmpty_iff _ |>.mp hh))]
  simp only [executeCommand, h1]
  split
  · rfl
  case _ b args _ =>
    have hh := runBuiltin_history w b args
      { st with command_history := st.command_history ++ [line] }
    rcases hrb : runBuiltin w b args
      { st with command_history := st.command_history ++ [line] } with ⟨res, st2⟩
    rw [hrb] at hh
    cases res <;> simpa using hh
  · rfl

theorem history_append_verbatim_witness :
    (executeCommand w0 st0 " ls ").2.command_history = [" ls "] := by
  simpa using history_append_verbatim w0 st0 " ls " (by decide)

/-! ## History display -/

theorem historyLines_length_le (st : TermState) : (historyLines st).length ≤ 20 := by
  unfold historyLines
  split
  · simp
  · rw [List.length_map, List.enumFrom_length]
    unfold lastN
    rw [List.length_drop]
    omega

theorem lastN_of_le (n : Nat) (l : List α) (h : l.length ≤ n) : lastN n l = l := by
  unfold lastN
  rw [Nat.sub_eq_zero_of_le h, List.drop_zero]

/-- A session whose history already holds 21 entries `x01 … x21`. -/
def st21 : TermState :=
  { st0 with command_history :=
      ["x01", "x02", "x03", "x04", "x05", "x06", "x07", "x08", "x09", "x10",
       "x11", "x12", "x13", "x14", "x15", "x16", "x17", "x18", "x19", "x20",
       "x21"] }

/-- C5 counterexample: the numbers shown by the history display are NOT
the global 1-based sequence numbers once the log exceeds 20 entries:
with 21 recorded commands the first displayed entry is the globally
2nd command `x02`, yet it is rendered with the number 1 (`"  1 x02"`),
where the claimed global numbering would render `"  2 x02"`. -/
theorem history_numbering_counterexample :
    st21.command_history.length = 21
    ∧ st21.command_history.get? 1 = some "x02"
    ∧ (historyLines st21).head? = some "  1 x02"
    ∧ ("  1 x02" : String) ≠ "  2 x02" :=
  ⟨by decide, by decide, by decide, by decide⟩

/-- C5 (amended): the history display lists, oldest first, at most the
most recent 20 entries, numbered from 1 within the displayed window
(these window numbers coincide with the global 1-based sequence numbers
exactly when the log holds at most 20 entries); a blank line is never
appended to the history; and after appending exactly `c1, c2, c3` the
three entries are displayed as `  1 c1`, `  2 c2`, `  3 c3` — the two
most recent ones carrying numbers 2 and 3. -/
theorem history_display_amended :
    (∀ st : TermState, (historyLines st).length ≤ 20)
    ∧ (∀ st : TermState, st.command_history.length ≤ 20 →
        ¬ st.command_history.isEmpty = true →
        historyLines st = (st.command_history.enumFrom 1).map
          (fun p => padLeft3 p.1 ++ " " ++ p.2))
    ∧ (∀ (w : World) (st : TermState) (line : String),
        (∀ c ∈ line.data, pyWhitespace c = true) →
        (executeCommand w st line).2.command_history = st.command_history)
    ∧ historyLines { st0 with command_history := ["c1", "c2", "c3"] }
        = ["  1 c1", "  2 c2", "  3 c3"] := by
  refine ⟨historyLines_length_le, ?_, ?_, by decide⟩
  · intro st hlen hne
    unfold historyLines
    rw [if_neg hne, lastN_of_le 20 _ hlen]
  · intro w st line h
    have hs : pyStrip line = "" := pyStrip_eq_empty line h
    have h1 : histAppend st line = st := by
      unfold histAppend
      rw [hs]
      rfl
    have hp : parse_command line = [] := by
      unfold parse_command
      rw [hs]
      rfl
    simp only [executeCommand, h1, hp]
    rfl

theorem history_display_amended_witness :
    (historyLines st21).length ≤ 20
    ∧ historyLines { st0 with command_history := ["c1", "c2"] }
        = (["c1", "c2"].enumFrom 1).map (fun p => padLeft3 p.1 ++ " " ++ p.2)
    ∧ (executeCommand w0 st0 "  ").2.command_history = [] := by
  refine ⟨history_display_amended.1 st21, ?_, ?_⟩
  · exact history_display_amended.2.1 { st0 with command_history := ["c1", "c2"] }
      (by decide) (by decide)
  · simpa using history_display_amended.2.2.1 w0 st0 "  " (by decide)

/-! ## The dispatch boundary -/

/-- C4: `execute_command` is total (it is a plain function into
`String × TermState`) and its catch-all boundary converts any exception a
dispatched handler raises into the human-readable line `Error: {message}`
— which is never the `EXIT` sentinel, so a fault can never terminate the
driving session loop. (Tokenization and alias lookup are pure string and
dict operations that cannot raise, and `execute_external_command`
catches all of its own exceptions, so handler dispatch is the only
raising step reaching the boundary.) -/
theorem dispatch_boundary_catches (w : World) (st : TermState) (line : String)
    (b : Builtin) (args : List String) (msg : String)
    (hroute : routeOf (histAppend st line).aliases (parse_command line)
      = .builtin b args)
    (hraise : (runBuiltin w b args (histAppend st line)).1 = .error msg) :
    executeCommand w st line
      = ("Error: " ++ msg, (runBuiltin w b args (histAppend st line)).2)
    ∧ (executeCommand w st line).1 ≠ "EXIT" := by
  have hmain : executeCommand w st line
      = ("Error: " ++ msg, (runBuiltin w b args (histAppend st line)).2) := by
    simp only [executeCommand, hroute]
    rcases hrb : runBuiltin w b args (histAppend st line) with ⟨res, st2⟩
    rw [hrb] at hraise
    simp only at hraise
    subst hraise
    rfl
  refine ⟨hmain, ?_⟩
  rw [hmain]
  intro hEq
  have hlen := congrArg String.length hEq
  rw [String.length_append] at hlen
  have h7 : ("Error: " : String).length = 7 := rfl
  have h4 : ("EXIT" : String).length = 4 := rfl
  omega

/-- A world in which every oracle-served handler raises an exception with
message `boom`. -/
def wBoom : World :=
  { home := "/root", pathExists := fun _ => false, isdir := fun _ => false,
    runBuiltinIO := fun _ _ _ => .error "boom", runExternal := fun _ _ _ => "" }

theorem dispatch_boundary_catches_witness :
    executeCommand wBoom st0 "ls"
      = ("Error: boom", (runBuiltin wBoom .ls [] (histAppend st0 "ls")).2)
    ∧ (executeCommand wBoom st0 "ls").1 ≠ "EXIT" :=
  dispatch_boundary_catches wBoom st0 "ls" .ls [] "boom" (by decide) (by rfl)

/-! ## Environment mirroring -/

theorem getA_setA_self (m : List (String × String)) (k v : String) :
    getA (setA m k v) k = some v := by
  induction m with
  | nil => simp [setA, getA]
  | cons p rest ih =>
    rcases p with ⟨k', v'⟩
    by_cases h : k' = k
    · simp [setA, getA, h]
    · simp [setA, getA, h, ih]

theorem splitOnceGo_of_no_sep (sep : Char) (vs : List Char) :
    ∀ (cs as : List Char), (∀ c ∈ cs, ¬ c = sep) →
      splitOnce.go sep (cs ++ sep :: vs) ⟨as⟩ = (⟨as ++ cs⟩, ⟨vs⟩) := by
  intro cs
  induction cs with
  | nil =>
    intro as _
    simp [splitOnce.go]
  | cons c rest ih =>
    intro as h
    simp only [List.cons_append, splitOnce.go]
    rw [if_neg (h c (by simp))]
    have hpush : (⟨as⟩ : String).push c = ⟨as ++ [c]⟩ := rfl
    rw [hpush]
    have h2 := ih (as ++ [c]) (fun x hx => h x (by simp [hx]))
    simpa using h2

theorem splitOnce_key_value (k v : String) (hk : ∀ c ∈ k.data, ¬ c = '=') :
    splitOnce '=' (k ++ "=" ++ v) = (k, v) := by
  unfold splitOnce
  have hd : (k ++ "=" ++ v).data = k.data ++ '=' :: v.data := by
    rw [String.data_append, String.data_append]
    have he : ("=" : String).data = ['='] := rfl
    rw [he, List.append_assoc]
    rfl
  rw [hd]
  have := splitOnceGo_of_no_sep '=' v.data k.data [] hk
  simpa using this

theorem containsEq_key_value (k v : String) :
    containsEq (k ++ "=" ++ v) = true := by
  unfold containsEq
  rw [String.data_append, String.data_append]
  simp

/-- A world in which exactly the directory `/a/b` exists. -/
def wCd : World :=
  { home := "/root", pathExists := fun p => p = "/a/b",
    isdir := fun p => p = "/a/b",
    runBuiltinIO := fun _ _ _ => .ok "", runExternal := fun _ _ _ => "" }

/-- A fresh session whose working directory is `/a`. -/
def stA : TermState := { st0 with current_dir := "/a" }

/-- C6 counterexample: not every `EnvironmentStore` mutation is mirrored
into the host process environment: a successful `cd` records the
previous working directory under `OLDPWD` in the session environment
map, but the host environment is left untouched, so a spawned child
would not observe it. -/
theorem oldpwd_not_mirrored_counterexample :
    (cmd_cd wCd stA ["b"]).1 = ""
    ∧ getA (cmd_cd wCd stA ["b"]).2.environment_vars "OLDPWD" = some "/a"
    ∧ getA (cmd_cd wCd stA ["b"]).2.host_env "OLDPWD" = none :=
  ⟨by decide, by decide, by decide⟩

/-- C6 (amended): mutations made through the `export` command with a
well-formed, non-empty variable name are mirrored into the host process
environment (the `key=value` argument lands, with identical value, in
both the session environment map and the host environment, so spawned
externals inherit it). Two `EnvironmentStore` writes are NOT mirrored,
however: for an empty variable name (line `export =v`) the session map
is written but the host-environment write raises `OSError`, which the
dispatch boundary renders as an error line, leaving the host
environment unchanged; and the reserved previous-working-directory key
`OLDPWD` recorded by a successful `cd` is written only to the session
map, never to the host environment. -/
theorem export_mirrored_cd_not_amended :
    (∀ (st : TermState) (k v : String), (∀ c ∈ k.data, ¬ c = '=') → ¬ k = "" →
      (cmd_export st [k ++ "=" ++ v]).1 = .ok ""
      ∧ getA (cmd_export st [k ++ "=" ++ v]).2.environment_vars k = some v
      ∧ getA (cmd_export st [k ++ "=" ++ v]).2.host_env k = some v)
    ∧ (∀ (st : TermState) (v : String),
      (cmd_export st ["=" ++ v]).1 = .error "[Errno 22] Invalid argument"
      ∧ getA (cmd_export st ["=" ++ v]).2.environment_vars "" = some v
      ∧ (cmd_export st ["=" ++ v]).2.host_env = st.host_env)
    ∧ getA (cmd_cd wCd stA ["b"]).2.environment_vars "OLDPWD" = some "/a"
    ∧ getA (cmd_cd wCd stA ["b"]).2.host_env "OLDPWD" = none := by
  refine ⟨?_, ?_, by decide, by decide⟩
  · intro st k v hk hk0
    have hc : containsEq (k ++ "=" ++ v) = true := containsEq_key_value k v
    have hs : splitOnce '=' (k ++ "=" ++ v) = (k, v) := splitOnce_key_value k v hk
    have hne : ([k ++ "=" ++ v] : List String).isEmpty = false := rfl
    simp only [cmd_export, hne, Bool.false_eq_true, if_false, exportLoop, hc,
      if_true, hs]
    rw [if_neg hk0]
    exact ⟨by trivial, getA_setA_self _ k v, getA_setA_self _ k v⟩
  · intro st v
    have hc : containsEq ("=" ++ v) = true := by
      unfold containsEq
      rw [String.data_append]
      simp
    have hs : splitOnce '=' ("=" ++ v) = ("", v) := by
      unfold splitOnce
      have hd : ("=" ++ v).data = '=' :: v.data := by
        rw [String.data_append]
        rfl
      rw [hd]
      simp [splitOnce.go]
    have hne : (["=" ++ v] : List String).isEmpty = false := rfl
    simp only [cmd_export, hne, Bool.false_eq_true, if_false, exportLoop, hc,
      if_true, hs]
    exact ⟨by trivial, getA_setA_self _ "" v, by trivial⟩

theorem export_mirrored_cd_not_amended_witness :
    (cmd_export st0 ["FOO=1"]).1 = .ok ""
    ∧ getA (cmd_export st0 ["FOO=1"]).2.environment_vars "FOO" = some "1"
    ∧ getA (cmd_export st0 ["FOO=1"]).2.host_env "FOO" = some "1"
    ∧ (cmd_export st0 ["=" ++ "v"]).1 = .error "[Errno 22] Invalid argument"
    ∧ (cmd_export st0 ["=" ++ "v"]).2.host_env = st0.host_env := by
  have h1 := export_mirrored_cd_not_amended.1 st0 "FOO" "1" (by decide) (by decide)
  have h2 := export_mirrored_cd_not_amended.2.1 st0 "v"
  exact ⟨by simpa using h1.1, by simpa using h1.2.1, by simpa using h1.2.2,
    h2.1, h2.2.2⟩

/-! ## Absoluteness of resolved `cd` targets -/

theorem isabs_append (a b : String) (h : isabs a = true) :
    isabs (a ++ b) = true := by
  unfold isabs at h ⊢
  rw [String.data_append]
  split at h
  case _ xs heq =>
    rw [heq]
    rfl
  case _ => exact absurd h (by simp)

theorem joinPath_isabs (a b : String) (h : isabs a = true) :
    isabs (joinPath a b) = true := by
  unfold joinPath
  split
  · assumption
  · split
    · exact isabs_append a b h
    · exact isabs_append (a ++ "/") b (isabs_append a "/" h)

theorem initialSlashes_pos (p : String) (h : isabs p = true) :
    1 ≤ initialSlashes p := by
  unfold initialSlashes
  rw [if_pos h]
  split <;> omega

theorem isabs_mk_cons (cs : List Char) (s : String) :
    isabs ((⟨'/' :: cs⟩ : String) ++ s) = true := by
  unfold isabs
  rw [String.data_append]
  rfl

theorem mk_cons_append_ne_empty (cs : List Char) (s : String) :
    ¬ ((⟨'/' :: cs⟩ : String) ++ s) = "" := by
  intro h
  have hd := congrArg String.data h
  rw [String.data_append] at hd
  have he : ("" : String).data = [] := rfl
  rw [he] at hd
  simp at hd

theorem normpath_isabs (p : String) (h : isabs p = true) :
    isabs (normpath p) = true := by
  have hne : ¬ p = "" := by
    intro he
    subst he
    exact absurd h (by decide)
  have hs : 1 ≤ initialSlashes p := initialSlashes_pos p h
  simp only [normpath]
  rw [if_neg hne]
  rcases hn : initialSlashes p with _ | m
  · omega
  · rw [List.replicate_succ]
    rw [if_neg (mk_cons_append_ne_empty _ _)]
    exact isabs_mk_cons _ _

theorem cdTarget_isabs (w : World) (st : TermState) (args : List String)
    (h : isabs st.current_dir = true) : isabs (cdTarget w st args) = true := by
  have key : ∀ t2 : String,
      isabs (if isabs t2 then t2 else joinPath st.current_dir t2) = true := by
    intro t2
    split
    · assumption
    · exact joinPath_isabs _ _ h
  simp only [cdTarget]
  exact normpath_isabs _ (key _)

/-- C9: change-directory is atomic and end-to-end correct: when the
resolved target exists and is a directory, `cd` moves there — the
session's current directory becomes the resolved target (an absolute
path whenever the current directory is absolute, which the session
maintains), the previous directory is recorded under `OLDPWD`, and the
output is empty; when it does not, `cd` returns
`cd: <abs-path>: No such file or directory` and the session state —
current directory and recorded `OLDPWD` value included — is exactly
unchanged. -/
theorem cd_end_to_end (w : World) (st : TermState) (d : String) :
    ((w.pathExists (cdTarget w st [d]) && w.isdir (cdTarget w st [d])) = true →
      cmd_cd w st [d] = ("", { st with
        environment_vars := setA st.environment_vars "OLDPWD" st.current_dir,
        current_dir := cdTarget w st [d] }))
    ∧ ((w.pathExists (cdTarget w st [d]) && w.isdir (cdTarget w st [d])) = false →
      cmd_cd w st [d]
        = ("cd: " ++ cdTarget w st [d] ++ ": No such file or directory", st))
    ∧ (isabs st.current_dir = true → isabs (cdTarget w st [d]) = true) := by
  refine ⟨?_, ?_, cdTarget_isabs w st [d]⟩
  · intro h
    simp only [cmd_cd]
    rw [if_pos h]
  · intro h
    simp only [cmd_cd]
    rw [if_neg (by rw [h]; simp)]

theorem cd_end_to_end_witness :
    cmd_cd wCd stA ["b"] = ("", { stA with
      environment_vars := setA stA.environment_vars "OLDPWD" stA.current_dir,
      current_dir := cdTarget wCd stA ["b"] })
    ∧ cmd_cd wCd stA ["missing"]
        = ("cd: " ++ cdTarget wCd stA ["missing"] ++ ": No such file or directory", stA)
    ∧ isabs (cdTarget wCd stA ["b"]) = true :=
  ⟨(cd_end_to_end wCd stA "b").1 (by decide),
   (cd_end_to_end wCd stA "missing").2.1 (by decide),
   (cd_end_to_end wCd stA "b").2.2 (by decide)⟩
